import Mathlib

/-!
Verification of the gitlab-mcp core: the GitLab request/response adapter
(`src/gitlab.rs`), the discussion-position validator/parser and payload
builders (`src/tools/gitlab.rs`), and the discussion tool operation
(`src/lib.rs`).

JSON values are modelled by the inductive `Value` below, mirroring
`serde_json::Value` with two declared simplifications: numbers are modelled
as unbounded integers (floating-point JSON numbers are out of scope), and
objects are association lists in insertion order with key lookup
(`serde_json::Map` forbids duplicate keys; all objects the code builds or
parses satisfy that).  `jsonParse` models `serde_json::from_str::<Value>`
on the integer fragment; `renderValue` models serialization to text.
-/

set_option maxRecDepth 10000

/-- Model of `serde_json::Value` (numbers restricted to integers). -/
inductive Value where
  | null
  | bool (b : Bool)
  | num (n : Int)
  | str (s : String)
  | arr (xs : List Value)
  | obj (fields : List (String × Value))

/-- Key lookup in a JSON object's field list (first occurrence). -/
def lookupField : List (String × Value) → String → Option Value
  | [], _ => none
  | (k, v) :: rest, key => if k = key then some v else lookupField rest key

/-- Combine one parsed object member with the members parsed after it,
modelling `serde_json::Map` insertion where a later duplicate key wins. -/
def upsertField (rest : List (String × Value)) (key : String) (v : Value) :
    List (String × Value) :=
  if (lookupField rest key).isSome then rest else (key, v) :: rest

def lbrace : Char := Char.ofNat 123
def rbrace : Char := Char.ofNat 125

/-- The JSON whitespace characters (RFC 8259, as in serde_json). -/
def isJsonWs (c : Char) : Bool :=
  c = ' ' ∨ c = '\t' ∨ c = '\n' ∨ c = '\r'

def skipWs : List Char → List Char
  | [] => []
  | c :: rest => if isJsonWs c then skipWs rest else c :: rest

/-- Translate a JSON string escape character to the character it denotes
(`\u` escapes are out of the modelled fragment). -/
def escChar (c : Char) : Option Char :=
  if c = '"' then some '"'
  else if c = '\\' then some '\\'
  else if c = '/' then some '/'
  else if c = 'n' then some '\n'
  else if c = 't' then some '\t'
  else if c = 'r' then some '\r'
  else if c = 'b' then some (Char.ofNat 8)
  else if c = 'f' then some (Char.ofNat 12)
  else none

/-- Parse the body of a JSON string after the opening quote, returning the
decoded characters and the input after the closing quote. -/
def parseStrRest : List Char → Except String (List Char × List Char)
  | [] => .error "unexpected end of input in string"
  | c :: rest =>
    if c = '"' then .ok ([], rest)
    else if c = '\\' then
      match rest with
      | [] => .error "unexpected end of input in string"
      | e :: rest2 =>
        match escChar e with
        | some d =>
          match parseStrRest rest2 with
          | .ok (cs, r) => .ok (d :: cs, r)
          | .error msg => .error msg
        | none => .error "unsupported escape in string"
    else if c.toNat < 32 then .error "control character in string"
    else
      match parseStrRest rest with
      | .ok (cs, r) => .ok (c :: cs, r)
      | .error msg => .error msg

def digitsToNat (ds : List Char) : Nat :=
  ds.foldl (fun acc c => 10 * acc + (c.toNat - '0'.toNat)) 0

/-- Reject the float forms (fraction/exponent) that are outside the modelled
integer fragment of JSON numbers. -/
def checkIntEnd (rest : List Char) : Except String Unit :=
  match rest with
  | [] => .ok ()
  | c :: _ =>
    if c = '.' ∨ c = 'e' ∨ c = 'E' then .error "non-integer number unsupported"
    else .ok ()

/-- Parse a JSON integer (optional minus, no leading zeros). -/
def parseNum (input : List Char) : Except String (Int × List Char) :=
  let (neg, s1) :=
    match input with
    | '-' :: r => (true, r)
    | _ => (false, input)
  match s1 with
  | [] => .error "expected digit"
  | c :: r =>
    if c = '0' then
      match checkIntEnd r with
      | .ok () =>
        match r with
        | [] => .ok (0, [])
        | d :: _ =>
          if d.isDigit then .error "leading zero in number" else .ok (0, r)
      | .error msg => .error msg
    else if c.isDigit then
      let ds := (c :: r).takeWhile Char.isDigit
      let rest := (c :: r).dropWhile Char.isDigit
      match checkIntEnd rest with
      | .ok () =>
        let n : Int := Int.ofNat (digitsToNat ds)
        .ok (if neg then -n else n, rest)
      | .error msg => .error msg
    else .error "expected digit"

/-- Loop parsing `value (, value)* ]` after the first non-`]` character of an
array body; `pv` is the value parser for the current nesting depth. -/
def parseElems (pv : List Char → Except String (Value × List Char)) :
    Nat → List Char → Except String (List Value × List Char)
  | 0, _ => .error "array too long"
  | fuel + 1, input =>
    match pv input with
    | .error msg => .error msg
    | .ok (v, r) =>
      match skipWs r with
      | [] => .error "unexpected end of input in array"
      | c :: r2 =>
        if c = ',' then
          match parseElems pv fuel r2 with
          | .ok (vs, rr) => .ok (v :: vs, rr)
          | .error msg => .error msg
        else if c = ']' then .ok ([v], r2)
        else .error "expected comma or close bracket"

/-- Loop parsing `"key": value (, "key": value)* \x7d` for an object body. -/
def parseMembers (pv : List Char → Except String (Value × List Char)) :
    Nat → List Char → Except String (List (String × Value) × List Char)
  | 0, _ => .error "object too long"
  | fuel + 1, input =>
    match skipWs input with
    | [] => .error "unexpected end of input in object"
    | c :: r =>
      if c = '"' then
        match parseStrRest r with
        | .error msg => .error msg
        | .ok (key, r1) =>
          match skipWs r1 with
          | [] => .error "unexpected end of input in object"
          | c2 :: r2 =>
            if c2 = ':' then
              match pv r2 with
              | .error msg => .error msg
              | .ok (v, r3) =>
                match skipWs r3 with
                | [] => .error "unexpected end of input in object"
                | c3 :: r4 =>
                  if c3 = ',' then
                    match parseMembers pv fuel r4 with
                    | .ok (fs, rr) => .ok (upsertField fs (String.mk key) v, rr)
                    | .error msg => .error msg
                  else if c3 = rbrace then .ok ([(String.mk key, v)], r4)
                  else .error "expected comma or close brace"
            else .error "expected colon"
      else .error "expected string key"

/-- Fuel-indexed JSON value parser (the fuel only bounds nesting/iteration;
`jsonParse` below supplies enough for any input). -/
def parseValue : Nat → List Char → Except String (Value × List Char)
  | 0, _ => .error "input too deeply nested"
  | fuel + 1, input =>
    match skipWs input with
    | [] => .error "unexpected end of input"
    | c :: rest =>
      if c = '"' then
        match parseStrRest rest with
        | .ok (cs, r) => .ok (.str (String.mk cs), r)
        | .error msg => .error msg
      else if c = lbrace then
        match skipWs rest with
        | [] => .error "unexpected end of input"
        | c2 :: r2 =>
          if c2 = rbrace then .ok (.obj [], r2)
          else
            match parseMembers (parseValue fuel) fuel (c2 :: r2) with
            | .ok (fs, r) => .ok (.obj fs, r)
            | .error msg => .error msg
      else if c = '[' then
        match skipWs rest with
        | [] => .error "unexpected end of input"
        | c2 :: r2 =>
          if c2 = ']' then .ok (.arr [], r2)
          else
            match parseElems (parseValue fuel) fuel (c2 :: r2) with
            | .ok (vs, r) => .ok (.arr vs, r)
            | .error msg => .error msg
      else if c = 'n' then
        match rest with
        | 'u' :: 'l' :: 'l' :: r => .ok (.null, r)
        | _ => .error "invalid literal"
      else if c = 't' then
        match rest with
        | 'r' :: 'u' :: 'e' :: r => .ok (.bool true, r)
        | _ => .error "invalid literal"
      else if c = 'f' then
        match rest with
        | 'a' :: 'l' :: 's' :: 'e' :: r => .ok (.bool false, r)
        | _ => .error "invalid literal"
      else if c = '-' ∨ c.isDigit then
        match parseNum (c :: rest) with
        | .ok (n, r) => .ok (.num n, r)
        | .error msg => .error msg
      else .error "unexpected character"

/-- Model of `serde_json::from_str::<Value>` on the integer fragment:
parse one JSON value and require only whitespace after it. -/
def jsonParse (s : String) : Except String Value :=
  match parseValue (2 * s.length + 4) s.data with
  | .error msg => .error msg
  | .ok (v, rest) =>
    match skipWs rest with
    | [] => .ok v
    | _ => .error "trailing characters"

/-! ## The structured error model (`rmcp::model::ErrorData`)

The three error constructors the code uses are `invalid_params`
(JSON-RPC code -32602), `invalid_request` (-32600) and `internal_error`
(-32603); we model the code by the `ErrorKind` tag. -/

inductive ErrorKind where
  | invalidParams
  | invalidRequest
  | internal
deriving DecidableEq

structure McpError where
  kind : ErrorKind
  message : String
  data : Option Value

/-- `McpError::invalid_params(message, data)`. -/
def McpError.invalid_params (message : String) (data : Option Value) : McpError :=
  ⟨.invalidParams, message, data⟩

/-- `McpError::invalid_request(message, data)`. -/
def McpError.invalid_request (message : String) (data : Option Value) : McpError :=
  ⟨.invalidRequest, message, data⟩

/-- `McpError::internal_error(message, data)`. -/
def McpError.internal_error (message : String) (data : Option Value) : McpError :=
  ⟨.internal, message, data⟩

/-- The kind of the error of a response-handling result, `none` on success. -/
def errKindOf : Except McpError Value → Option ErrorKind
  | .error e => some e.kind
  | .ok _ => none

/-- The message of the error of a response-handling result. -/
def errMessageOf : Except McpError Value → Option String
  | .error e => some e.message
  | .ok _ => none

/-- The detail payload of the error of a response-handling result. -/
def errDetailOf : Except McpError Value → Option (Option Value)
  | .error e => some e.data
  | .ok _ => none

/-! ## `src/gitlab.rs`: the GitLab client -/

/-- The Unicode `White_Space` property, as tested by Rust's `char::is_whitespace`. -/
def isRustWs (c : Char) : Bool :=
  let n := c.toNat
  (9 ≤ n ∧ n ≤ 13) ∨ n = 32 ∨ n = 133 ∨ n = 160 ∨ n = 5760 ∨
  (8192 ≤ n ∧ n ≤ 8202) ∨ n = 8232 ∨ n = 8233 ∨ n = 8239 ∨ n = 8287 ∨ n = 12288

/-- Model of Rust `str::trim`. -/
def strTrim (s : String) : String :=
  ⟨((s.data.dropWhile isRustWs).reverse.dropWhile isRustWs).reverse⟩

/-- Model of Rust `str::trim_end_matches('/')`: strip all trailing slashes. -/
def trimEndSlashes (s : String) : String :=
  ⟨(s.data.reverse.dropWhile (fun c => c = '/')).reverse⟩

/-- Prefix test on character lists: `startsL p s` holds when `p` begins `s`. -/
def startsL : List Char → List Char → Bool
  | [], _ => true
  | _ :: _, [] => false
  | a :: as, b :: bs => a = b && startsL as bs

/-- Model of Rust `str::ends_with` for string patterns. -/
def strEndsWith (s pat : String) : Bool :=
  startsL pat.data.reverse s.data.reverse

/-- The `base_url` normalization inside `GitLabClient::new`: strip trailing
slashes, keep a `/api/v4` suffix, complete a `/api` suffix with `/v4`, and
otherwise append `/api/v4`. -/
def normalizeBaseUrl (s : String) : String :=
  let trimmed := trimEndSlashes s
  if strEndsWith trimmed "/api/v4" then trimmed
  else if strEndsWith trimmed "/api" then trimmed ++ "/v4"
  else trimmed ++ "/api/v4"

structure GitLabClient where
  base_url : String
  token : String
deriving DecidableEq

/-- `GitLabClient::new`: reject empty/whitespace-only configuration, then
normalize the base URL.  The construction is pure — no HTTP request is
built or sent here (the `reqwest` client construction holds no network
activity either). -/
def GitLabClient.new (base_url token : String) : Except String GitLabClient :=
  if strTrim base_url = "" then
    .error "GITLAB_URL environment variable is empty"
  else if strTrim token = "" then
    .error "GITLAB_TOKEN environment variable is empty"
  else
    .ok ⟨normalizeBaseUrl base_url, token⟩

/-- `StatusCode::is_success`: the 2xx range. -/
def isSuccessStatus (status : Nat) : Bool :=
  200 ≤ status ∧ status ≤ 299

/-- The ASCII apostrophe, used in the 418 reason phrase. -/
def apostrophe : String :=
  ⟨[Char.ofNat 39]⟩

/-- `StatusCode::canonical_reason`: the full reason-phrase table of the
`http` crate (which `reqwest::StatusCode` re-exports); every status code
the crate leaves without a phrase yields `none`. -/
def canonicalReason (status : Nat) : Option String :=
  match status with
  | 100 => some "Continue"
  | 101 => some "Switching Protocols"
  | 102 => some "Processing"
  | 200 => some "OK"
  | 201 => some "Created"
  | 202 => some "Accepted"
  | 203 => some "Non-Authoritative Information"
  | 204 => some "No Content"
  | 205 => some "Reset Content"
  | 206 => some "Partial Content"
  | 207 => some "Multi-Status"
  | 208 => some "Already Reported"
  | 226 => some "IM Used"
  | 300 => some "Multiple Choices"
  | 301 => some "Moved Permanently"
  | 302 => some "Found"
  | 303 => some "See Other"
  | 304 => some "Not Modified"
  | 305 => some "Use Proxy"
  | 307 => some "Temporary Redirect"
  | 308 => some "Permanent Redirect"
  | 400 => some "Bad Request"
  | 401 => some "Unauthorized"
  | 402 => some "Payment Required"
  | 403 => some "Forbidden"
  | 404 => some "Not Found"
  | 405 => some "Method Not Allowed"
  | 406 => some "Not Acceptable"
  | 407 => some "Proxy Authentication Required"
  | 408 => some "Request Timeout"
  | 409 => some "Conflict"
  | 410 => some "Gone"
  | 411 => some "Length Required"
  | 412 => some "Precondition Failed"
  | 413 => some "Payload Too Large"
  | 414 => some "URI Too Long"
  | 415 => some "Unsupported Media Type"
  | 416 => some "Range Not Satisfiable"
  | 417 => some "Expectation Failed"
  | 418 => some ("I" ++ apostrophe ++ "m a teapot")
  | 421 => some "Misdirected Request"
  | 422 => some "Unprocessable Entity"
  | 423 => some "Locked"
  | 424 => some "Failed Dependency"
  | 426 => some "Upgrade Required"
  | 428 => some "Precondition Required"
  | 429 => some "Too Many Requests"
  | 431 => some "Request Header Fields Too Large"
  | 451 => some "Unavailable For Legal Reasons"
  | 500 => some "Internal Server Error"
  | 501 => some "Not Implemented"
  | 502 => some "Bad Gateway"
  | 503 => some "Service Unavailable"
  | 504 => some "Gateway Timeout"
  | 505 => some "HTTP Version Not Supported"
  | 506 => some "Variant Also Negotiates"
  | 507 => some "Insufficient Storage"
  | 508 => some "Loop Detected"
  | 510 => some "Not Extended"
  | 511 => some "Network Authentication Required"
  | _ => none

/-- `GitLabClient::handle_response`, after the body has been read into
`text`: on a 2xx status parse the body as JSON (parse failure is an
internal error); otherwise build the detail value and map the status to
the structured error exactly as the `match status` in the source does. -/
def handle_response (status : Nat) (text : String) : Except McpError Value :=
  if isSuccessStatus status then
    match jsonParse text with
    | .ok v => .ok v
    | .error err =>
      .error (McpError.internal_error "GitLab returned invalid JSON" (some (.str err)))
  else
    let detail : Value :=
      if text = "" then
        .str ((canonicalReason status).getD "Unknown GitLab error")
      else
        match jsonParse text with
        | .ok v => v
        | .error _ => .str text
    .error (
      if status = 404 then
        McpError.invalid_params "GitLab resource not found" (some detail)
      else if status = 401 ∨ status = 403 then
        McpError.invalid_request "GitLab authentication failed" (some detail)
      else if status = 400 ∨ status = 422 then
        McpError.invalid_params "GitLab reported a validation error" (some detail)
      else
        McpError.internal_error "GitLab request failed" (some detail))

/-! ## `src/tools/gitlab.rs`: position schema, validation, payload builders -/

/-- `DiscussionPositionType` (serde `rename_all = "lowercase"`). -/
inductive DiscussionPositionType where
  | text
  | image
deriving DecidableEq

/-- `DiscussionLinePositionType` (serde `rename_all = "lowercase"`). -/
inductive DiscussionLinePositionType where
  | new
  | old
deriving DecidableEq

/-- `DiscussionLineReference`: `line_code`, `type`, optional lines. -/
structure DiscussionLineReference where
  line_code : String
  position_type : DiscussionLinePositionType
  old_line : Option Nat
  new_line : Option Nat
deriving DecidableEq

/-- `DiscussionLineRange`: a start and an end `DiscussionLineReference`. -/
structure DiscussionLineRange where
  start : DiscussionLineReference
  stop : DiscussionLineReference
deriving DecidableEq

/-- `DiscussionPosition` (line numbers are `u32` in the source; they are
decoded with the `u32` range check and carried as `Nat`). -/
structure DiscussionPosition where
  base_sha : String
  head_sha : String
  start_sha : String
  position_type : DiscussionPositionType
  new_path : String
  old_path : String
  new_line : Option Nat
  old_line : Option Nat
  line_range : Option DiscussionLineRange
deriving DecidableEq

/-- serde decoding of a required `String` struct field. -/
def reqString (fields : List (String × Value)) (name : String) :
    Except String String :=
  match lookupField fields name with
  | some (.str s) => .ok s
  | some _ => .error ("invalid type for field " ++ name)
  | none => .error ("missing field " ++ name)

/-- serde decoding of `DiscussionPositionType` with the
`default_position_type` default (`text`) when the field is absent. -/
def decodePositionType (v : Option Value) : Except String DiscussionPositionType :=
  match v with
  | none => .ok .text
  | some (.str "text") => .ok .text
  | some (.str "image") => .ok .image
  | some _ => .error "unknown variant for position_type"

/-- serde decoding of `type` in a line reference. -/
def decodeLineType (v : Option Value) : Except String DiscussionLinePositionType :=
  match v with
  | some (.str "new") => .ok .new
  | some (.str "old") => .ok .old
  | some _ => .error "unknown variant for type"
  | none => .error "missing field type"

/-- serde decoding of an `Option<u32>` field with `#[serde(default)]`:
absent or `null` is `None`; a number must be in `u32` range. -/
def decodeOptU32 (v : Option Value) : Except String (Option Nat) :=
  match v with
  | none => .ok none
  | some .null => .ok none
  | some (.num n) =>
    if 0 ≤ n ∧ n ≤ 4294967295 then .ok (some n.toNat)
    else .error "number out of range for u32"
  | some _ => .error "invalid type for line number"

/-- serde decoding of `DiscussionLineReference` from a JSON value. -/
def decodeLineReference (v : Value) : Except String DiscussionLineReference :=
  match v with
  | .obj fields => do
    let line_code ← reqString fields "line_code"
    let t ← decodeLineType (lookupField fields "type")
    let old_line ← decodeOptU32 (lookupField fields "old_line")
    let new_line ← decodeOptU32 (lookupField fields "new_line")
    pure ⟨line_code, t, old_line, new_line⟩
  | _ => .error "invalid type: expected line reference object"

/-- serde decoding of `DiscussionLineRange` from a JSON value. -/
def decodeLineRange (v : Value) : Except String DiscussionLineRange :=
  match v with
  | .obj fields => do
    let s ←
      match lookupField fields "start" with
      | some sv => decodeLineReference sv
      | none => .error "missing field start"
    let e ←
      match lookupField fields "end" with
      | some ev => decodeLineReference ev
      | none => .error "missing field end"
    pure ⟨s, e⟩
  | _ => .error "invalid type: expected line range object"

/-- serde decoding of the `Option<DiscussionLineRange>` field. -/
def decodeOptLineRange (v : Option Value) : Except String (Option DiscussionLineRange) :=
  match v with
  | none => .ok none
  | some .null => .ok none
  | some other => (decodeLineRange other).map some

/-- `serde_json::from_value::<DiscussionPosition>`: decode a JSON value
against the `DiscussionPosition` schema (unknown fields ignored, as serde
does without `deny_unknown_fields`). -/
def DiscussionPosition.fromValue (v : Value) : Except String DiscussionPosition :=
  match v with
  | .obj fields => do
    let base_sha ← reqString fields "base_sha"
    let head_sha ← reqString fields "head_sha"
    let start_sha ← reqString fields "start_sha"
    let position_type ← decodePositionType (lookupField fields "position_type")
    let new_path ← reqString fields "new_path"
    let old_path ← reqString fields "old_path"
    let new_line ← decodeOptU32 (lookupField fields "new_line")
    let old_line ← decodeOptU32 (lookupField fields "old_line")
    let line_range ← decodeOptLineRange (lookupField fields "line_range")
    pure ⟨base_sha, head_sha, start_sha, position_type, new_path, old_path,
          new_line, old_line, line_range⟩
  | _ => .error "invalid type: expected struct DiscussionPosition"

/-- Serialization of `DiscussionPositionType` (lowercase). -/
def DiscussionPositionType.toValue : DiscussionPositionType → Value
  | .text => .str "text"
  | .image => .str "image"

def DiscussionLinePositionType.toValue : DiscussionLinePositionType → Value
  | .new => .str "new"
  | .old => .str "old"

/-- Serialization of `DiscussionLineReference` (`skip_serializing_if
Option::is_none` on the line fields). -/
def DiscussionLineReference.toValue (r : DiscussionLineReference) : Value :=
  .obj ([("line_code", .str r.line_code), ("type", r.position_type.toValue)] ++
    (match r.old_line with | some n => [("old_line", Value.num n)] | none => []) ++
    (match r.new_line with | some n => [("new_line", Value.num n)] | none => []))

def DiscussionLineRange.toValue (r : DiscussionLineRange) : Value :=
  .obj [("start", r.start.toValue), ("end", r.stop.toValue)]

/-- `serde_json::to_value` of a `DiscussionPosition`: every non-optional
field is emitted; the three `Option` fields carry
`#[serde(skip_serializing_if = "Option::is_none")]` and are omitted
entirely when `None`. -/
def DiscussionPosition.toValue (p : DiscussionPosition) : Value :=
  .obj ([("base_sha", .str p.base_sha), ("head_sha", .str p.head_sha),
        ("start_sha", .str p.start_sha),
        ("position_type", p.position_type.toValue),
        ("new_path", .str p.new_path), ("old_path", .str p.old_path)] ++
    (match p.new_line with | some n => [("new_line", Value.num n)] | none => []) ++
    (match p.old_line with | some n => [("old_line", Value.num n)] | none => []) ++
    (match p.line_range with | some r => [("line_range", r.toValue)] | none => []))

/-- `DiscussionPosition::validate`: the three invariant groups, each with
its own fixed `invalid_params` message, checked in source order. -/
def DiscussionPosition.validate (p : DiscussionPosition) : Except McpError Unit :=
  if strTrim p.base_sha = "" ∨ strTrim p.head_sha = "" ∨ strTrim p.start_sha = "" then
    .error (McpError.invalid_params
      "GitLab discussion position requires base_sha, head_sha, and start_sha" none)
  else if strTrim p.new_path = "" ∨ strTrim p.old_path = "" then
    .error (McpError.invalid_params
      "GitLab discussion position requires both new_path and old_path" none)
  else if ¬(p.new_line.isSome ∨ p.old_line.isSome ∨ p.line_range.isSome) then
    .error (McpError.invalid_params
      "GitLab discussion position requires at least one of new_line, old_line, or line_range" none)
  else
    .ok ()

/-- The second half of `parse_discussion_position`:
`serde_json::from_value` wrapped into the schema-mismatch error. -/
def decodePosition (v : Value) : Except McpError DiscussionPosition :=
  match DiscussionPosition.fromValue v with
  | .ok p => .ok p
  | .error err =>
    .error (McpError.invalid_params
      "position must be a GitLab discussion position object" (some (.str err)))

/-- `parse_discussion_position`: a JSON string is parsed as JSON first
(with its own `invalid_params` error when it is not valid JSON); any other
value is decoded directly. -/
def parse_discussion_position (raw : Value) : Except McpError DiscussionPosition :=
  match raw with
  | .str s =>
    match jsonParse s with
    | .ok v => decodePosition v
    | .error err =>
      .error (McpError.invalid_params
        "position string is not valid JSON" (some (.str err)))
  | other => decodePosition other

/-- `CreateMergeRequestDiscussionRequest` (locator flattened; `resolve`
defaults to `None` when absent). -/
structure CreateMergeRequestDiscussionRequest where
  project : String
  merge_request_iid : Nat
  body : String
  position : Value
  resolve : Option Bool

/-- `CreateMergeRequestNoteRequest`. -/
structure CreateMergeRequestNoteRequest where
  project : String
  merge_request_iid : Nat
  body : String
  confidential : Option Bool

/-- `map_to_payload`. -/
def map_to_payload (m : List (String × Value)) : Value :=
  .obj m

/-- `discussion_payload`: parse and validate the position, then build
`body` / `position`, inserting `resolve` only when the caller supplied it.
(`serde_json::to_value` of a validated position cannot fail, so the
source's serialization `map_err` arm is dead and the serialization is the
total `DiscussionPosition.toValue`.) -/
def discussion_payload (req : CreateMergeRequestDiscussionRequest) :
    Except McpError Value :=
  match parse_discussion_position req.position with
  | .error e => .error e
  | .ok position =>
    match position.validate with
    | .error e => .error e
    | .ok () =>
      let m := [("body", Value.str req.body)]
      let m := m ++ [("position", position.toValue)]
      let m :=
        match req.resolve with
        | some r => m ++ [("resolve", Value.bool r)]
        | none => m
      .ok (map_to_payload m)

/-- `note_payload`: `body`, plus `confidential` only when supplied. -/
def note_payload (req : CreateMergeRequestNoteRequest) : Value :=
  let m := [("body", Value.str req.body)]
  let m :=
    match req.confidential with
    | some c => m ++ [("confidential", Value.bool c)]
    | none => m
  map_to_payload m

/-- JSON string escaping for serialization. -/
def escapeOut (c : Char) : List Char :=
  if c = '"' then ['\\', '"']
  else if c = '\\' then ['\\', '\\']
  else if c = '\n' then ['\\', 'n']
  else if c = '\t' then ['\\', 't']
  else if c = '\r' then ['\\', 'r']
  else [c]

/-- Serialization of a JSON string literal. -/
def renderStr (s : String) : String :=
  ⟨'"' :: (s.data.flatMap escapeOut) ++ ['"']⟩

/-- Serialization of a JSON value to text, modelling
`serde_json::to_string_pretty` up to whitespace. -/
def renderValue (v : Value) : String :=
  match v with
  | .null => "null"
  | .bool true => "true"
  | .bool false => "false"
  | .num n => toString n
  | .str s => renderStr s
  | .arr xs =>
    "[" ++ String.intercalate "," (xs.attach.map (fun x => renderValue x.1)) ++ "]"
  | .obj fields =>
    ⟨[lbrace]⟩ ++
      String.intercalate ","
        (fields.attach.map (fun kv => renderStr kv.1.1 ++ ":" ++ renderValue kv.1.2)) ++
      ⟨[rbrace]⟩
decreasing_by
  · have := List.sizeOf_lt_of_mem x.2
    simp only [Value.arr.sizeOf_spec]
    omega
  · rcases kv with ⟨⟨k, w⟩, hm⟩
    have := List.sizeOf_lt_of_mem hm
    simp only [Prod.mk.sizeOf_spec] at this
    simp only [Value.obj.sizeOf_spec]
    omega

/-- `json_result`: serialize the upstream value as text content for the
tool result (the serialization of a `Value` cannot fail, so the source's
`map_err` arm is dead). -/
def json_result (v : Value) : Except McpError String :=
  .ok (renderValue v)

/-! ## `src/lib.rs`: the `create_merge_request_discussion` operation

The operation is modelled together with the trace of HTTP calls it issues:
`gitlab` stands for `GitLabClient::create_merge_request_discussion`
(project, merge-request iid and JSON payload of the one POST it would
send), and the returned list records exactly the calls made. -/

structure HttpCall where
  project : String
  merge_request_iid : Nat
  payload : Value

/-- `Server::create_merge_request_discussion`: build the payload (parsing
and validating the position), and only then issue the single GitLab call;
on success pretty-print the upstream value. -/
def create_merge_request_discussion
    (gitlab : HttpCall → Except McpError Value)
    (req : CreateMergeRequestDiscussionRequest) :
    Except McpError String × List HttpCall :=
  match discussion_payload req with
  | .error e => (.error e, [])
  | .ok payload =>
    let call : HttpCall := ⟨req.project, req.merge_request_iid, payload⟩
    match gitlab call with
    | .error e => (.error e, [call])
    | .ok value => (json_result value, [call])

/-! ## Theorems -/

lemma jsonParse_empty : jsonParse "" = .error "unexpected end of input" := rfl

/-- C1: for every non-success HTTP status and any body, `handle_response`
returns a structured error whose kind is exactly: 404 invalid-params,
401/403 invalid-request, 400/422 invalid-params, anything else internal;
the mapping is total over non-success statuses. -/
theorem handle_response_error_kind_total (status : Nat) (text : String)
    (h : isSuccessStatus status = false) :
    errKindOf (handle_response status text) =
      some (if status = 404 then ErrorKind.invalidParams
        else if status = 401 ∨ status = 403 then ErrorKind.invalidRequest
        else if status = 400 ∨ status = 422 then ErrorKind.invalidParams
        else ErrorKind.internal) := by
  simp only [handle_response, h, Bool.false_eq_true, if_false, errKindOf]
  split
  · rfl
  · split
    · rfl
    · split <;> rfl

/-- Witness for C1 at the concrete non-success status 500. -/
theorem handle_response_error_kind_total_witness :
    isSuccessStatus 500 = false ∧
    errKindOf (handle_response 500 "oops") = some ErrorKind.internal := by
  refine ⟨by decide, ?_⟩
  have h := handle_response_error_kind_total 500 "oops" (by decide)
  simpa using h

/-- C7 (counterexample to the claim as stated): a 2xx response with a
malformed JSON body yields an internal structured error, but its message
is the source's "GitLab returned invalid JSON", not the
"upstream returned invalid JSON" quoted by the spec. -/
theorem success_invalid_json_message_counterexample :
    errKindOf (handle_response 200 "not json") = some ErrorKind.internal ∧
    errMessageOf (handle_response 200 "not json") =
      some "GitLab returned invalid JSON" ∧
    errMessageOf (handle_response 200 "not json") ≠
      some "upstream returned invalid JSON" := by
  refine ⟨rfl, rfl, ?_⟩
  decide

/-- C7 (amended): for every success-range status whose body does not parse
as JSON, `handle_response` returns an internal error with message
"GitLab returned invalid JSON" carrying the parse failure description —
never a crash and never an empty success value. -/
theorem success_invalid_json_internal (status : Nat) (text : String) (err : String)
    (hs : isSuccessStatus status = true) (hp : jsonParse text = .error err) :
    handle_response status text =
      .error (McpError.internal_error "GitLab returned invalid JSON"
        (some (.str err))) := by
  simp only [handle_response, hs, if_true, hp]

/-- Witness for the amended C7 at status 200 with body "not json". -/
theorem success_invalid_json_internal_witness :
    isSuccessStatus 200 = true ∧
    handle_response 200 "not json" =
      .error (McpError.internal_error "GitLab returned invalid JSON"
        (some (.str "invalid literal"))) :=
  ⟨by decide, success_invalid_json_internal 200 "not json" "invalid literal"
    (by decide) (by rfl)⟩

/-- C9: for every non-success response the error's detail is the body
parsed as JSON when it parses, otherwise the status reason phrase when the
body is empty, otherwise the raw body text as a JSON string — the upstream
diagnostic is always carried. -/
theorem nonsuccess_error_detail (status : Nat) (text : String)
    (h : isSuccessStatus status = false) :
    errDetailOf (handle_response status text) =
      some (some (match jsonParse text with
        | .ok v => v
        | .error _ =>
          if text = "" then
            Value.str ((canonicalReason status).getD "Unknown GitLab error")
          else Value.str text)) := by
  simp only [handle_response, h, Bool.false_eq_true, if_false, errDetailOf]
  have hbranch : ∀ d : Value,
      (if status = 404 then
        McpError.invalid_params "GitLab resource not found" (some d)
      else if status = 401 ∨ status = 403 then
        McpError.invalid_request "GitLab authentication failed" (some d)
      else if status = 400 ∨ status = 422 then
        McpError.invalid_params "GitLab reported a validation error" (some d)
      else
        McpError.internal_error "GitLab request failed" (some d)).data = some d := by
    intro d
    split
    · rfl
    · split
      · rfl
      · split <;> rfl
  rw [hbranch]
  by_cases ht : text = ""
  · subst ht
    rw [jsonParse_empty]
  · rw [if_neg ht]
    cases hj : jsonParse text <;> simp [ht, hj]

/-- Witness for C9 at statuses 404 and 402 with empty bodies (the detail
is the reason phrase). -/
theorem nonsuccess_error_detail_witness :
    (isSuccessStatus 404 = false ∧
      errDetailOf (handle_response 404 "") = some (some (.str "Not Found"))) ∧
    (isSuccessStatus 402 = false ∧
      errDetailOf (handle_response 402 "") =
        some (some (.str "Payment Required"))) := by
  constructor
  · refine ⟨by decide, ?_⟩
    have h := nonsuccess_error_detail 404 "" (by decide)
    simpa [jsonParse_empty] using h
  · refine ⟨by decide, ?_⟩
    have h := nonsuccess_error_detail 402 "" (by decide)
    simpa [jsonParse_empty] using h

lemma startsL_self_append (p r : List Char) : startsL p (p ++ r) = true := by
  induction p with
  | nil => rfl
  | cons a as ih => simp [startsL, ih]

lemma startsL_append_left (q : List Char) {p s : List Char}
    (h : startsL p s = true) : startsL (q ++ p) (q ++ s) = true := by
  induction q with
  | nil => simpa using h
  | cons a as ih => simp [startsL, ih]

lemma string_data_append (s t : String) : (s ++ t).data = s.data ++ t.data := by
  cases s
  cases t
  rfl

lemma strEndsWith_append_right (t b pat : String)
    (h : strEndsWith t pat = true) :
    strEndsWith (t ++ b) (pat ++ b) = true := by
  unfold strEndsWith at h ⊢
  rw [string_data_append, string_data_append, List.reverse_append, List.reverse_append]
  exact startsL_append_left _ h

lemma strEndsWith_self_append (t pat : String) :
    strEndsWith (t ++ pat) pat = true := by
  unfold strEndsWith
  rw [string_data_append, List.reverse_append]
  exact startsL_self_append _ _

/-- Every normalized base URL ends in `/api/v4`. -/
lemma normalizeBaseUrl_endsWith (s : String) :
    strEndsWith (normalizeBaseUrl s) "/api/v4" = true := by
  simp only [normalizeBaseUrl]
  split
  · assumption
  · split
    · rename_i hapi
      have h := strEndsWith_append_right (trimEndSlashes s) "/v4" "/api" hapi
      have hcat : ("/api" : String) ++ "/v4" = "/api/v4" := rfl
      rwa [hcat] at h
    · exact strEndsWith_self_append _ _

/-- C4: every successfully constructed client's base URL is the source's
normalization of the input and ends exactly in `/api/v4`; the
normalization keeps a `/api/v4` suffix after stripping trailing slashes,
completes a `/api` suffix with `/v4`, appends `/api/v4` otherwise, and
maps the three example URLs as the spec states. -/
theorem new_base_url_normalized :
    (∀ url tok c, GitLabClient.new url tok = .ok c →
        c.base_url = normalizeBaseUrl url ∧
        strEndsWith c.base_url "/api/v4" = true) ∧
    (∀ s, strEndsWith (trimEndSlashes s) "/api/v4" = true →
        normalizeBaseUrl s = trimEndSlashes s) ∧
    (∀ s, strEndsWith (trimEndSlashes s) "/api/v4" = false →
        strEndsWith (trimEndSlashes s) "/api" = true →
        normalizeBaseUrl s = trimEndSlashes s ++ "/v4") ∧
    (∀ s, strEndsWith (trimEndSlashes s) "/api/v4" = false →
        strEndsWith (trimEndSlashes s) "/api" = false →
        normalizeBaseUrl s = trimEndSlashes s ++ "/api/v4") ∧
    normalizeBaseUrl "https://gitlab.com/" = "https://gitlab.com/api/v4" ∧
    normalizeBaseUrl "https://gitlab.com/api" = "https://gitlab.com/api/v4" ∧
    normalizeBaseUrl "https://gitlab.com/api/v4/" = "https://gitlab.com/api/v4" := by
  refine ⟨?_, ?_, ?_, ?_, by decide, by decide, by decide⟩
  · intro url tok c h
    unfold GitLabClient.new at h
    split at h
    · cases h
    · split at h
      · cases h
      · cases h
        exact ⟨rfl, normalizeBaseUrl_endsWith url⟩
  · intro s h
    simp only [normalizeBaseUrl]
    rw [if_pos h]
  · intro s h1 h2
    simp only [normalizeBaseUrl]
    rw [if_neg (by simp [h1]), if_pos h2]
  · intro s h1 h2
    simp only [normalizeBaseUrl]
    rw [if_neg (by simp [h1]), if_neg (by simp [h2])]

/-- Witness for C4 at `"https://gitlab.com/"`. -/
theorem new_base_url_normalized_witness :
    GitLabClient.new "https://gitlab.com/" "tok" =
      .ok ⟨"https://gitlab.com/api/v4", "tok"⟩ ∧
    strEndsWith "https://gitlab.com/api/v4" "/api/v4" = true := by
  have h := new_base_url_normalized.1 "https://gitlab.com/" "tok"
    ⟨"https://gitlab.com/api/v4", "tok"⟩ (by rfl)
  exact ⟨by rfl, h.2⟩

/-- C8: `GitLabClient::new` fails with the configuration error whenever
`base_url` or `token` is empty or whitespace-only (the construction is
pure, so no network activity can precede the failure); in particular
`new("", "tok")` and `new("url", "")` both fail. -/
theorem new_rejects_empty_config :
    (∀ url tok, strTrim url = "" →
        GitLabClient.new url tok =
          .error "GITLAB_URL environment variable is empty") ∧
    (∀ url tok, strTrim url ≠ "" → strTrim tok = "" →
        GitLabClient.new url tok =
          .error "GITLAB_TOKEN environment variable is empty") ∧
    (GitLabClient.new "" "tok").isOk = false ∧
    (GitLabClient.new "url" "").isOk = false := by
  refine ⟨?_, ?_, by decide, by decide⟩
  · intro url tok h
    unfold GitLabClient.new
    rw [if_pos h]
  · intro url tok hu ht
    unfold GitLabClient.new
    rw [if_neg hu, if_pos ht]

/-- Witness for C8 at the spec's two concrete inputs. -/
theorem new_rejects_empty_config_witness :
    GitLabClient.new "" "tok" =
      .error "GITLAB_URL environment variable is empty" ∧
    GitLabClient.new "url" "" =
      .error "GITLAB_TOKEN environment variable is empty" :=
  ⟨new_rejects_empty_config.1 "" "tok" (by decide),
   new_rejects_empty_config.2.1 "url" "" (by decide) (by decide)⟩

/-- A position whose `base_sha` is whitespace but not empty: every field of
the claim's "non-empty" reading is satisfied, yet `validate` rejects it. -/
def wsShaPosition : DiscussionPosition :=
  ⟨" ", "b", "c", .text, "f", "f", some 1, none, none⟩

/-- C2 (counterexample to the claim as stated): all SHA/path fields of
`wsShaPosition` are non-empty and a line locator is present, but
`validate` does not succeed (the source tests emptiness after trimming). -/
theorem validate_nonempty_iff_counterexample :
    wsShaPosition.base_sha ≠ "" ∧ wsShaPosition.head_sha ≠ "" ∧
    wsShaPosition.start_sha ≠ "" ∧ wsShaPosition.new_path ≠ "" ∧
    wsShaPosition.old_path ≠ "" ∧ wsShaPosition.new_line.isSome = true ∧
    wsShaPosition.validate ≠ .ok () := by
  refine ⟨by decide, by decide, by decide, by decide, by decide, rfl, ?_⟩
  intro h
  rw [show wsShaPosition.validate = .error (McpError.invalid_params
    "GitLab discussion position requires base_sha, head_sha, and start_sha" none)
    from rfl] at h
  exact Except.noConfusion h

/-- C2 (amended: "non-empty" reads "non-empty after trimming whitespace"):
`validate` succeeds iff all three SHAs and both paths are non-whitespace
and at least one line locator is present; each invariant group fails with
its own fixed message, and the three messages are pairwise distinct. -/
theorem validate_invariants (p : DiscussionPosition) :
    (p.validate = .ok () ↔
      (strTrim p.base_sha ≠ "" ∧ strTrim p.head_sha ≠ "" ∧ strTrim p.start_sha ≠ "" ∧
       strTrim p.new_path ≠ "" ∧ strTrim p.old_path ≠ "" ∧
       (p.new_line.isSome ∨ p.old_line.isSome ∨ p.line_range.isSome))) ∧
    ((strTrim p.base_sha = "" ∨ strTrim p.head_sha = "" ∨ strTrim p.start_sha = "") →
      p.validate = .error (McpError.invalid_params
        "GitLab discussion position requires base_sha, head_sha, and start_sha" none)) ∧
    ((strTrim p.base_sha ≠ "" ∧ strTrim p.head_sha ≠ "" ∧ strTrim p.start_sha ≠ "") →
      (strTrim p.new_path = "" ∨ strTrim p.old_path = "") →
      p.validate = .error (McpError.invalid_params
        "GitLab discussion position requires both new_path and old_path" none)) ∧
    ((strTrim p.base_sha ≠ "" ∧ strTrim p.head_sha ≠ "" ∧ strTrim p.start_sha ≠ "") →
      (strTrim p.new_path ≠ "" ∧ strTrim p.old_path ≠ "") →
      ¬(p.new_line.isSome ∨ p.old_line.isSome ∨ p.line_range.isSome) →
      p.validate = .error (McpError.invalid_params
        "GitLab discussion position requires at least one of new_line, old_line, or line_range" none)) ∧
    ("GitLab discussion position requires base_sha, head_sha, and start_sha" ≠
      "GitLab discussion position requires both new_path and old_path") ∧
    ("GitLab discussion position requires base_sha, head_sha, and start_sha" ≠
      "GitLab discussion position requires at least one of new_line, old_line, or line_range") ∧
    ("GitLab discussion position requires both new_path and old_path" ≠
      "GitLab discussion position requires at least one of new_line, old_line, or line_range") := by
  refine ⟨?_, ?_, ?_, ?_, by decide, by decide, by decide⟩
  · simp only [DiscussionPosition.validate]
    split_ifs with hA hB hC
    · constructor
      · intro h
        exact absurd h (by simp)
      · rintro ⟨h1, h2, h3, -, -, -⟩
        rcases hA with h | h | h <;> contradiction
    · constructor
      · intro h
        exact absurd h (by simp)
      · rintro ⟨-, -, -, h4, h5, -⟩
        rcases hB with h | h <;> contradiction
    · constructor
      · intro _
        push_neg at hA hB
        exact ⟨hA.1, hA.2.1, hA.2.2, hB.1, hB.2, hC⟩
      · intro _
        rfl
    · constructor
      · intro h
        exact absurd h (by simp)
      · rintro ⟨-, -, -, -, -, h6⟩
        exact hC h6
  · intro hA
    simp only [DiscussionPosition.validate]
    rw [if_pos hA]
  · intro hS hP
    simp only [DiscussionPosition.validate]
    rw [if_neg (by tauto), if_pos hP]
  · intro hS hP hL
    simp only [DiscussionPosition.validate]
    rw [if_neg (by tauto), if_neg (by tauto), if_pos hL]

/-- Witness for the amended C2: a position missing every line locator
fails with exactly the line-locator message. -/
theorem validate_invariants_witness :
    DiscussionPosition.validate ⟨"a", "b", "c", .text, "f", "f", none, none, none⟩ =
      .error (McpError.invalid_params
        "GitLab discussion position requires at least one of new_line, old_line, or line_range" none) :=
  (validate_invariants _).2.2.2.1 ⟨by decide, by decide, by decide⟩
    ⟨by decide, by decide⟩ (by simp)

lemma exceptBind_ok {ε α β : Type} {x : Except ε α} {f : α → Except ε β} {b : β}
    (h : x >>= f = .ok b) : ∃ a, x = .ok a ∧ f a = .ok b := by
  cases x with
  | error e => simp [Bind.bind, Except.bind] at h
  | ok a => exact ⟨a, rfl, by simpa [Bind.bind, Except.bind] using h⟩

/-- Inversion of a successful `DiscussionPosition` schema decode: each
field of the result comes from decoding the corresponding object entry. -/
lemma fromValue_obj_inv {fields : List (String × Value)} {p : DiscussionPosition}
    (h : DiscussionPosition.fromValue (.obj fields) = .ok p) :
    reqString fields "base_sha" = .ok p.base_sha ∧
    reqString fields "head_sha" = .ok p.head_sha ∧
    reqString fields "start_sha" = .ok p.start_sha ∧
    decodePositionType (lookupField fields "position_type") = .ok p.position_type ∧
    reqString fields "new_path" = .ok p.new_path ∧
    reqString fields "old_path" = .ok p.old_path ∧
    decodeOptU32 (lookupField fields "new_line") = .ok p.new_line ∧
    decodeOptU32 (lookupField fields "old_line") = .ok p.old_line ∧
    decodeOptLineRange (lookupField fields "line_range") = .ok p.line_range := by
  simp only [DiscussionPosition.fromValue] at h
  obtain ⟨a1, h1, h⟩ := exceptBind_ok h
  obtain ⟨a2, h2, h⟩ := exceptBind_ok h
  obtain ⟨a3, h3, h⟩ := exceptBind_ok h
  obtain ⟨a4, h4, h⟩ := exceptBind_ok h
  obtain ⟨a5, h5, h⟩ := exceptBind_ok h
  obtain ⟨a6, h6, h⟩ := exceptBind_ok h
  obtain ⟨a7, h7, h⟩ := exceptBind_ok h
  obtain ⟨a8, h8, h⟩ := exceptBind_ok h
  obtain ⟨a9, h9, h⟩ := exceptBind_ok h
  cases h
  exact ⟨h1, h2, h3, h4, h5, h6, h7, h8, h9⟩

/-- A successful `parse_discussion_position` on a non-string is exactly a
successful schema decode. -/
lemma parse_obj_ok {fields : List (String × Value)} {p : DiscussionPosition}
    (h : parse_discussion_position (.obj fields) = .ok p) :
    DiscussionPosition.fromValue (.obj fields) = .ok p := by
  simp only [parse_discussion_position, decodePosition] at h
  split at h
  · rename_i heq
    cases h
    exact heq
  · cases h

/-- C3: a position supplied as a JSON-encoded string parses identically to
the same JSON supplied as a value, and a string that is not valid JSON
fails with the dedicated invalid-params error, whose message differs from
the schema-mismatch message. -/
theorem parse_position_string_object_equivalent :
    (∀ s v p, jsonParse s = .ok v →
        DiscussionPosition.fromValue v = .ok p →
        parse_discussion_position (Value.str s) = .ok p ∧
        parse_discussion_position v = .ok p) ∧
    (∀ s err, jsonParse s = .error err →
        parse_discussion_position (Value.str s) =
          .error (McpError.invalid_params "position string is not valid JSON"
            (some (.str err))) ∧
        "position string is not valid JSON" ≠
          "position must be a GitLab discussion position object") := by
  constructor
  · intro s v p hj hv
    constructor
    · simp only [parse_discussion_position, hj, decodePosition, hv]
    · cases v with
      | str s2 => exact absurd hv (by simp [DiscussionPosition.fromValue])
      | null => simp only [parse_discussion_position, decodePosition, hv]
      | bool b => simp only [parse_discussion_position, decodePosition, hv]
      | num n => simp only [parse_discussion_position, decodePosition, hv]
      | arr xs => simp only [parse_discussion_position, decodePosition, hv]
      | obj fs => simp only [parse_discussion_position, decodePosition, hv]
  · intro s err hj
    exact ⟨by simp only [parse_discussion_position, hj], by decide⟩

/-- The JSON text of the witness position for C3. -/
def positionJsonText : String :=
  "\x7b\"base_sha\":\"a\",\"head_sha\":\"b\",\"start_sha\":\"c\"," ++
  "\"new_path\":\"f\",\"old_path\":\"f\",\"new_line\":1\x7d"

/-- The JSON value `positionJsonText` denotes. -/
def positionJsonValue : Value :=
  .obj [("base_sha", .str "a"), ("head_sha", .str "b"), ("start_sha", .str "c"),
        ("new_path", .str "f"), ("old_path", .str "f"), ("new_line", .num 1)]

/-- The decoded witness position for C3. -/
def positionParsed : DiscussionPosition :=
  ⟨"a", "b", "c", .text, "f", "f", some 1, none, none⟩

/-- Witness for C3: the string form and the object form of the same
position parse to the same result. -/
theorem parse_position_string_object_equivalent_witness :
    parse_discussion_position (Value.str positionJsonText) = .ok positionParsed ∧
    parse_discussion_position positionJsonValue = .ok positionParsed :=
  parse_position_string_object_equivalent.1 positionJsonText positionJsonValue
    positionParsed (by rfl) (by rfl)

/-- Key lookup in a JSON value (objects only). -/
def valueLookup (v : Value) (key : String) : Option Value :=
  match v with
  | .obj fields => lookupField fields key
  | _ => none

/-- C5: a parsed position whose input omits `position_type` has
`position_type = text`; a parsed position whose input carries
`position_type = "image"` re-serializes with `position_type` still
`"image"` (round-trip). -/
theorem position_type_default_and_roundtrip :
    (∀ fields p, lookupField fields "position_type" = none →
        parse_discussion_position (Value.obj fields) = .ok p →
        p.position_type = .text) ∧
    (∀ fields p, lookupField fields "position_type" = some (Value.str "image") →
        parse_discussion_position (Value.obj fields) = .ok p →
        valueLookup p.toValue "position_type" = some (Value.str "image")) := by
  constructor
  · intro fields p hl hp
    have h4 := (fromValue_obj_inv (parse_obj_ok hp)).2.2.2.1
    rw [hl] at h4
    simp only [decodePositionType, Except.ok.injEq] at h4
    exact h4.symm
  · intro fields p hl hp
    have h4 := (fromValue_obj_inv (parse_obj_ok hp)).2.2.2.1
    rw [hl] at h4
    simp only [decodePositionType, Except.ok.injEq] at h4
    simp [DiscussionPosition.toValue, valueLookup, lookupField, ← h4,
      DiscussionPositionType.toValue]

/-- Witness for C5: a concrete position without `position_type` parses to
`text`, and one with `"image"` re-serializes as `"image"`. -/
theorem position_type_default_and_roundtrip_witness :
    DiscussionPosition.position_type
      ⟨"a", "b", "c", .text, "f", "f", some 1, none, none⟩ = .text ∧
    valueLookup (DiscussionPosition.toValue
      ⟨"a", "b", "c", .image, "f", "f", some 1, none, none⟩) "position_type" =
      some (Value.str "image") :=
  ⟨position_type_default_and_roundtrip.1
      [("base_sha", .str "a"), ("head_sha", .str "b"), ("start_sha", .str "c"),
       ("new_path", .str "f"), ("old_path", .str "f"), ("new_line", .num 1)]
      ⟨"a", "b", "c", .text, "f", "f", some 1, none, none⟩ rfl (by rfl),
   position_type_default_and_roundtrip.2
      [("base_sha", .str "a"), ("head_sha", .str "b"), ("start_sha", .str "c"),
       ("position_type", .str "image"),
       ("new_path", .str "f"), ("old_path", .str "f"), ("new_line", .num 1)]
      ⟨"a", "b", "c", .image, "f", "f", some 1, none, none⟩ rfl (by rfl)⟩

/-- C6: the discussion payload contains the `resolve` key iff the caller
supplied `resolve` (with exactly the supplied boolean), and the note
payload contains `confidential` iff the caller supplied it; unset optional
flags are omitted entirely, never emitted as `null`. -/
theorem optional_flags_caller_controlled :
    (∀ req payload, discussion_payload req = .ok payload →
        valueLookup payload "resolve" = req.resolve.map Value.bool) ∧
    (∀ req, valueLookup (note_payload req) "confidential" =
        req.confidential.map Value.bool) := by
  constructor
  · intro req payload h
    simp only [discussion_payload] at h
    split at h
    · cases h
    · split at h
      · cases h
      · cases h
        cases hr : req.resolve with
        | none => simp [hr, map_to_payload, valueLookup, lookupField]
        | some r => simp [hr, map_to_payload, valueLookup, lookupField]
  · intro req
    cases hc : req.confidential with
    | none => simp [note_payload, hc, map_to_payload, valueLookup, lookupField]
    | some c => simp [note_payload, hc, map_to_payload, valueLookup, lookupField]

/-- The discussion request used as the C6 witness. -/
def discussionReqEx : CreateMergeRequestDiscussionRequest :=
  ⟨"group/proj", 5, "note",
   .obj [("base_sha", .str "a"), ("head_sha", .str "b"), ("start_sha", .str "c"),
         ("new_path", .str "f"), ("old_path", .str "f"), ("new_line", .num 1)],
   some true⟩

/-- The payload `discussion_payload` builds for `discussionReqEx`. -/
def discussionPayloadEx : Value :=
  .obj [("body", .str "note"),
        ("position", .obj [("base_sha", .str "a"), ("head_sha", .str "b"),
          ("start_sha", .str "c"), ("position_type", .str "text"),
          ("new_path", .str "f"), ("old_path", .str "f"), ("new_line", .num 1)]),
        ("resolve", .bool true)]

/-- Witness for C6: supplied `resolve: true` lands in the payload; an
unset `confidential` is absent from the note payload. -/
theorem optional_flags_caller_controlled_witness :
    valueLookup discussionPayloadEx "resolve" = some (.bool true) ∧
    valueLookup (note_payload ⟨"group/proj", 5, "hello", none⟩) "confidential" =
      none := by
  constructor
  · have h := optional_flags_caller_controlled.1 discussionReqEx
      discussionPayloadEx (by rfl)
    simpa [discussionReqEx] using h
  · have h := optional_flags_caller_controlled.2 ⟨"group/proj", 5, "hello", none⟩
    simpa using h

lemma decodePosition_error_kind {v : Value} {e : McpError}
    (h : decodePosition v = .error e) : e.kind = .invalidParams := by
  simp only [decodePosition] at h
  split at h
  · cases h
  · cases h
    rfl

lemma parse_error_kind {raw : Value} {e : McpError}
    (h : parse_discussion_position raw = .error e) : e.kind = .invalidParams := by
  cases raw with
  | str s =>
    simp only [parse_discussion_position] at h
    split at h
    · exact decodePosition_error_kind h
    · cases h
      rfl
  | null =>
    simp only [parse_discussion_position] at h
    exact decodePosition_error_kind h
  | bool b =>
    simp only [parse_discussion_position] at h
    exact decodePosition_error_kind h
  | num n =>
    simp only [parse_discussion_position] at h
    exact decodePosition_error_kind h
  | arr xs =>
    simp only [parse_discussion_position] at h
    exact decodePosition_error_kind h
  | obj fs =>
    simp only [parse_discussion_position] at h
    exact decodePosition_error_kind h

lemma validate_error_kind {p : DiscussionPosition} {e : McpError}
    (h : DiscussionPosition.validate p = .error e) : e.kind = .invalidParams := by
  simp only [DiscussionPosition.validate] at h
  split_ifs at h
  · cases h
    rfl
  · cases h
    rfl
  · cases h
    rfl

/-- C10: when the position of a create-discussion request fails parsing or
validation, the operation returns that invalid-params error and issues no
HTTP call (the trace of GitLab calls is empty). -/
theorem discussion_validation_before_http
    (gitlab : HttpCall → Except McpError Value)
    (req : CreateMergeRequestDiscussionRequest) (e : McpError)
    (h : parse_discussion_position req.position = .error e ∨
      (∃ p, parse_discussion_position req.position = .ok p ∧
        p.validate = .error e)) :
    create_merge_request_discussion gitlab req = (.error e, []) ∧
    e.kind = ErrorKind.invalidParams := by
  rcases h with hp | ⟨p, hp, hv⟩
  · have hd : discussion_payload req = .error e := by
      simp only [discussion_payload, hp]
    exact ⟨by simp only [create_merge_request_discussion, hd], parse_error_kind hp⟩
  · have hd : discussion_payload req = .error e := by
      simp only [discussion_payload, hp, hv]
    exact ⟨by simp only [create_merge_request_discussion, hd], validate_error_kind hv⟩

/-- Witness for C10: an unparsable position string yields the
invalid-params error and an empty HTTP-call trace. -/
theorem discussion_validation_before_http_witness :
    create_merge_request_discussion (fun _ => .ok .null)
        ⟨"group/proj", 1, "b", .str "not json", none⟩ =
      (.error (McpError.invalid_params "position string is not valid JSON"
        (some (.str "invalid literal"))), []) ∧
    (McpError.invalid_params "position string is not valid JSON"
        (some (.str "invalid literal"))).kind = ErrorKind.invalidParams :=
  discussion_validation_before_http (fun _ => .ok .null)
    ⟨"group/proj", 1, "b", .str "not json", none⟩ _ (Or.inl (by rfl))
